import Mathlib

/-!
Verification of the move-resolution core of an AI-vs-AI chess match driver.

The embedding covers:
* `safe_get_move` (src/move_logic.py): the retry / validate / exclude /
  fallback loop that turns raw provider text into a legal move or a forfeit;
* the prompt builders inlined in the four provider wrappers
  (src/ai_wrappers.py: `get_openai_move`, `get_claude_move`,
  `get_deepseek_move`, `get_gemini_move`);
* the slice of the UI / driver pipeline (src/ui.py `render_main_ui`,
  src/main.py ply loop) that the claims about option plumbing and board
  framing refer to.

The chess rules library (python-chess) is an external oracle: a `Board`
carries its observable interface (FEN serialization, side to move, legal
move list, the two notation parsers).  Moves are represented abstractly as
strings.  Python exceptions are modelled with `Except`: a provider either
returns a string or raises; `safe_get_move` itself can surface a provider
exception (it has no try/except around the provider call) or an
`IndexError` (from `random.choice` on an empty sequence).  Randomness is
modelled by threading an explicit natural-number seed `rng`; `random.choice`
picks index `rng % length`.  The Streamlit `st.warning` side effect is
modelled by collecting the warning strings in the run record, and the number
of provider invocations is recorded to reason about call counts.
-/

deriving instance DecidableEq for Except

/-- Oracle move values (python-chess `Move` objects), abstract tokens. -/
abbrev Move := String

/-- Drop leading whitespace characters from a character list. -/
def stripLeading : List Char → List Char
  | [] => []
  | c :: cs => if c.isWhitespace then stripLeading cs else c :: cs

/-- Python `str.strip()` with no argument: remove leading and trailing
whitespace. -/
def pyStrip (s : String) : String :=
  ⟨(stripLeading (stripLeading s.data).reverse).reverse⟩

/-- Observable interface of a python-chess `Board` used by the code under
verification: `fen()`, `turn`, `legal_moves`, and the two parsers
`parse_uci` / `parse_san`, which in Python return a move or raise
`ValueError` (modelled as `Option`). -/
structure Board where
  fen : String
  turnWhite : Bool
  legalMoves : List Move
  parseUci : String → Option Move
  parseSan : String → Option Move

/-- A move provider: `engine_func(board, sub_model, excluded_moves, ...)`.
It either returns raw text (`Except.ok`) or raises a transport error
(`Except.error` with the exception message).  Within one `safe_get_move`
call the exclusion list passed in differs at every attempt, so a provider
function of the exclusion list can answer differently on each attempt. -/
abbrev Provider := Board → String → List String → Except String String

/-- Python exceptions that can escape `safe_get_move`: an uncaught provider
exception, or the `IndexError` raised by `random.choice` on an empty
sequence. -/
inductive PyExc where
  | providerError : String → PyExc
  | indexError : PyExc
deriving DecidableEq

/-- Observable outcome of one `safe_get_move` call: the returned value (or
the escaping exception), the `st.warning` messages emitted, the final state
of the local `excluded_moves` list, the number of provider invocations, and
the board as left behind by the call. -/
structure RunResult where
  result : Except PyExc (Option Move)
  warnings : List String
  excluded : List String
  providerCalls : Nat
  boardAfter : Board

/-- The parse cascade of move_logic.py lines 36-43: try `board.parse_uci`,
on `ValueError` try `board.parse_san`, on `ValueError` give up. -/
def parseMove (b : Board) (raw : String) : Option Move :=
  match b.parseUci raw with
  | some m => some m
  | none => b.parseSan raw

/-- `random.choice(l)` with the random state made explicit as a seed:
uniform over the list when the seed is uniform modulo the length; raises
`IndexError` (here: `none`) on an empty sequence. -/
def randomChoice (l : List Move) (rng : Nat) : Option Move :=
  if h : l.length = 0 then none
  else some (l.get ⟨rng % l.length, Nat.mod_lt _ (Nat.pos_of_ne_zero h)⟩)

/-- Python `str.title()` restricted to its effect on cased ASCII words:
an alphabetic character is uppercased when it follows a non-alphabetic
character and lowercased otherwise. -/
def titleAux : List Char → Bool → List Char
  | [], _ => []
  | c :: cs, prevAlpha =>
    (if c.isAlpha then (if prevAlpha then c.toLower else c.toUpper) else c)
      :: titleAux cs c.isAlpha

/-- Python `str.title()`. -/
def pyTitle (s : String) : String := ⟨titleAux s.data false⟩

/-- The common first part of both warnings of move_logic.py lines 54-63:
`f"{turn.title()} gave invalid moves after {max_retries} tries. "`. -/
def triesMsg (turn : String) (maxRetries : Nat) : String :=
  pyTitle turn ++ " gave invalid moves after " ++ toString maxRetries ++ " tries. "

/-- The `st.warning` text on the random-fallback branch (lines 54-57). -/
def fallbackWarning (turn : String) (maxRetries : Nat) : String :=
  triesMsg turn maxRetries ++ "Using random legal move as fallback."

/-- The `st.warning` text on the forfeit branch (lines 60-63); the source
file contains the mojibake sequence for an em dash. -/
def forfeitWarning (turn : String) (maxRetries : Nat) : String :=
  triesMsg turn maxRetries ++ "No fallback â€” forfeit."

/-- One resolution attempt fails when the stripped response neither parses
as UCI nor as SAN, or parses to a move outside `board.legal_moves`
(move_logic.py line 45 with the condition negated). -/
def attemptFails (b : Board) (s : String) : Bool :=
  match parseMove b (pyStrip s) with
  | some m => !(b.legalMoves.contains m)
  | none => true

/-- The `for attempt in range(max_retries)` loop of move_logic.py lines
31-64, by recursion on the remaining attempts; `excluded` and `calls`
accumulate the `excluded_moves` list and the number of provider
invocations.  When the loop exhausts its attempts it falls to the
fallback/forfeit branch (lines 52-64). -/
def safeGetMoveLoop (b : Board) (engine : Provider) (subModel turn : String)
    (maxRetries : Nat) (randomFallback : Bool) (rng : Nat) :
    Nat → List String → Nat → RunResult
  | 0, excluded, calls =>
    if randomFallback then
      match randomChoice b.legalMoves rng with
      | some m =>
        { result := Except.ok (some m)
          warnings := [fallbackWarning turn maxRetries]
          excluded := excluded, providerCalls := calls, boardAfter := b }
      | none =>
        { result := Except.error PyExc.indexError
          warnings := [fallbackWarning turn maxRetries]
          excluded := excluded, providerCalls := calls, boardAfter := b }
    else
      { result := Except.ok none
        warnings := [forfeitWarning turn maxRetries]
        excluded := excluded, providerCalls := calls, boardAfter := b }
  | n + 1, excluded, calls =>
    match engine b subModel excluded with
    | Except.error e =>
      { result := Except.error (PyExc.providerError e)
        warnings := []
        excluded := excluded, providerCalls := calls + 1, boardAfter := b }
    | Except.ok raw0 =>
      let rawMove := pyStrip raw0
      match parseMove b rawMove with
      | some m =>
        if b.legalMoves.contains m then
          { result := Except.ok (some m)
            warnings := []
            excluded := excluded, providerCalls := calls + 1, boardAfter := b }
        else
          safeGetMoveLoop b engine subModel turn maxRetries randomFallback rng
            n (excluded ++ [rawMove]) (calls + 1)
      | none =>
        safeGetMoveLoop b engine subModel turn maxRetries randomFallback rng
          n (excluded ++ [rawMove]) (calls + 1)

/-- `safe_get_move` of src/move_logic.py: the exclusion list starts empty
(line 29) and the loop runs for at most `maxRetries` attempts. -/
def safe_get_move (b : Board) (engine : Provider) (subModel turn : String)
    (maxRetries : Nat) (randomFallback : Bool) (rng : Nat) : RunResult :=
  safeGetMoveLoop b engine subModel turn maxRetries randomFallback rng
    maxRetries [] 0

/-- Python `repr` of a list of strings, as produced by the f-string
`f"{excluded_moves}"` in the wrapper prompts (quote-free move strings). -/
def pyListRepr (l : List String) : String :=
  "[" ++ String.intercalate ", " (l.map (fun s => "\x27" ++ s ++ "\x27")) ++ "]"

/-- The exclusion block of the wrapper prompts (ai_wrappers.py lines 34-39
and its three verbatim copies): empty when `excluded_moves` is falsy. -/
def exclusionText (excluded : List String) : String :=
  if excluded.isEmpty then ""
  else
    "Invalid or previously attempted moves that are NOT allowed:\n"
      ++ pyListRepr excluded ++ "\n"
      ++ "Do not return any of those moves, and do not return any illegal moves.\n"

/-- Prompt built inside `get_openai_move` (ai_wrappers.py lines 32-45). -/
def get_openai_move_prompt (b : Board) (excluded : List String) : String :=
  let colorStr := if b.turnWhite then "White" else "Black"
  "You are a chess engine. It is " ++ colorStr ++ "\x27s turn.\n"
    ++ "Given this FEN: " ++ b.fen ++ ", return a legal best move in UCI format only.\n"
    ++ exclusionText excluded

/-- Prompt built inside `get_claude_move` (ai_wrappers.py lines 81-94). -/
def get_claude_move_prompt (b : Board) (excluded : List String) : String :=
  let colorStr := if b.turnWhite then "White" else "Black"
  "You are a chess engine. It is " ++ colorStr ++ "\x27s turn.\n"
    ++ "Given this FEN: " ++ b.fen ++ ", return a legal best move in UCI format only.\n"
    ++ exclusionText excluded

/-- Prompt built inside `get_deepseek_move` (ai_wrappers.py lines 122-135). -/
def get_deepseek_move_prompt (b : Board) (excluded : List String) : String :=
  let colorStr := if b.turnWhite then "White" else "Black"
  "You are a chess engine. It is " ++ colorStr ++ "\x27s turn.\n"
    ++ "Given this FEN: " ++ b.fen ++ ", return a legal best move in UCI format only.\n"
    ++ exclusionText excluded

/-- Prompt built inside `get_gemini_move` (ai_wrappers.py lines 171-184). -/
def get_gemini_move_prompt (b : Board) (excluded : List String) : String :=
  let colorStr := if b.turnWhite then "White" else "Black"
  "You are a chess engine. It is " ++ colorStr ++ "\x27s turn.\n"
    ++ "Given this FEN: " ++ b.fen ++ ", return a legal best move in UCI format only.\n"
    ++ exclusionText excluded

/-- The slice of the `render_main_ui` return value (src/ui.py lines
109-120) that the prompt-option claims refer to; the other keys (engine and
sub-model selections, clock settings, start button) do not reach the prompt
builders. -/
structure MainUiParams where
  random_fallback : Bool
  include_valid_moves : Bool

/-- The prompt actually sent for a ply as a function of the UI parameters:
src/main.py (lines 70-78) reads `white_engine`, `white_sub_model`,
`black_engine`, `black_sub_model`, `time_control`, `minutes`, `increment`,
`random_fallback` and `start_button_clicked` out of dictionary returned by `render_main_ui` and never reads `include_valid_moves`; `safe_get_move` invokes
`engine_func(board, sub_model, excluded_moves=..., debug_log=...)`
(move_logic.py line 32), so the wrapper prompt depends only on the board
and the exclusion list. -/
def promptForPly (_params : MainUiParams) (b : Board) (excluded : List String) :
    String :=
  get_openai_move_prompt b excluded

/-- The ply step of the match driver (src/main.py lines 137-154): call
`safe_get_move`; on a returned move, push it on the board via the apply operation of the oracle (`board.push`, passed in abstractly); on `None` break out
(forfeit), leaving the board untouched; an escaping exception also leaves
the board untouched. -/
def plyStep (push : Board → Move → Board) (b : Board) (engine : Provider)
    (subModel turn : String) (maxRetries : Nat) (randomFallback : Bool)
    (rng : Nat) : Board :=
  match (safe_get_move b engine subModel turn maxRetries randomFallback rng).result with
  | Except.ok (some m) => push b m
  | _ => b

/-- String containment, used to state that a warning names the side and the
attempt count: the needle occurs contiguously in the haystack. -/
def containsStr (hay needle : String) : Prop :=
  ∃ pre post : List Char, hay.data = pre ++ needle.data ++ post

-- Concrete instances used by witnesses and counterexamples. --

/-- A board with two legal moves whose UCI parser recognizes exactly those
moves (abstractly standing in for a real position). -/
def bTwo : Board :=
  { fen := "rnbqkbnr/pppppppp/8/8/8/8/PPPPPPPP/RNBQKBNR w KQkq - 0 1"
    turnWhite := true
    legalMoves := ["e2e4", "d2d4"]
    parseUci := fun s => if s = "e2e4" ∨ s = "d2d4" then some s else none
    parseSan := fun _ => none }

/-- A terminal board: no legal moves, nothing parses. -/
def bMate : Board :=
  { fen := "7k/5KQ1/8/8/8/8/8/8 b - - 0 1"
    turnWhite := false
    legalMoves := []
    parseUci := fun _ => none
    parseSan := fun _ => none }

/-- A provider that always answers the same unparsable text. -/
def eJunk : Provider := fun _ _ _ => Except.ok "xx"

/-- A provider that always raises a transport error. -/
def eThrow : Provider := fun _ _ _ => Except.error "boom"

/-- A provider that answers a legal move immediately. -/
def eGood : Provider := fun _ _ _ => Except.ok "e2e4"

-- General lemmas about the loop. --

/-- A successful `randomChoice` picks an element of the list. -/
theorem randomChoice_mem (l : List Move) (rng : Nat) (m : Move)
    (h : randomChoice l rng = some m) : m ∈ l := by
  unfold randomChoice at h
  split at h
  · cases h
  · simp only [Option.some.injEq] at h
    subst h
    exact List.get_mem _ _ _

/-- On a nonempty list, `randomChoice` returns the element at index
`rng % length`. -/
theorem randomChoice_nonempty (l : List Move) (rng : Nat) (hne : l ≠ []) :
    ∃ hlt : rng % l.length < l.length,
      randomChoice l rng = some (l.get ⟨rng % l.length, hlt⟩) := by
  have hpos : 0 < l.length := List.length_pos.mpr hne
  refine ⟨Nat.mod_lt _ hpos, ?_⟩
  unfold randomChoice
  split
  · omega
  · rfl

/-- `List.contains` (with the lawful `BEq` on strings) implies membership. -/
theorem mem_of_containsList {l : List String} {m : String}
    (h : l.contains m = true) : m ∈ l := by
  simpa using h

/-- A failing attempt steps the loop: one more provider call, the stripped
response appended to the exclusion list. -/
theorem safeGetMoveLoop_step_fail (b : Board) (E : Provider)
    (sm turn : String) (mr : Nat) (rf : Bool) (rng n calls : Nat)
    (excl : List String) (s : String)
    (hE : E b sm excl = Except.ok s) (hf : attemptFails b s = true) :
    safeGetMoveLoop b E sm turn mr rf rng (n + 1) excl calls
      = safeGetMoveLoop b E sm turn mr rf rng n (excl ++ [pyStrip s]) (calls + 1) := by
  unfold attemptFails at hf
  unfold safeGetMoveLoop
  cases hp : parseMove b (pyStrip s) with
  | some m =>
    rw [hp] at hf
    simp only [Bool.not_eq_eq_eq_not, Bool.not_true] at hf
    simp only [hE, hp, hf, Bool.false_eq_true, if_false]
    rw [safeGetMoveLoop.eq_def]
  | none =>
    simp only [hE, hp]
    rw [safeGetMoveLoop.eq_def]

/-- Any move the loop returns as `Except.ok (some m)` is a member of the
legal-move list of the board. -/
theorem safeGetMoveLoop_ok_mem (b : Board) (E : Provider) (sm turn : String)
    (mr : Nat) (rf : Bool) (rng : Nat) :
    ∀ (n : Nat) (excl : List String) (calls : Nat) (m : Move),
      (safeGetMoveLoop b E sm turn mr rf rng n excl calls).result
        = Except.ok (some m) →
      m ∈ b.legalMoves := by
  intro n
  induction n with
  | zero =>
    intro excl calls m h
    unfold safeGetMoveLoop at h
    split at h
    · cases hc : randomChoice b.legalMoves rng with
      | some m2 =>
        rw [hc] at h
        simp only [Except.ok.injEq, Option.some.injEq] at h
        subst h
        exact randomChoice_mem _ _ _ hc
      | none => rw [hc] at h; cases h
    · cases h
  | succ n ih =>
    intro excl calls m h
    unfold safeGetMoveLoop at h
    cases hE : E b sm excl with
    | error e => simp [hE] at h
    | ok raw0 =>
      cases hp : parseMove b (pyStrip raw0) with
      | some m2 =>
        simp only [hE, hp] at h
        split at h
        · simp only [Except.ok.injEq, Option.some.injEq] at h
          subst h
          exact mem_of_containsList (by assumption)
        · exact ih _ _ _ h
      | none =>
        simp only [hE, hp] at h
        exact ih _ _ _ h

/-- The loop leaves the board exactly as it received it: no branch routes
the position through any mutating oracle operation. -/
theorem safeGetMoveLoop_boardAfter (b : Board) (E : Provider)
    (sm turn : String) (mr : Nat) (rf : Bool) (rng : Nat) :
    ∀ (n : Nat) (excl : List String) (calls : Nat),
      (safeGetMoveLoop b E sm turn mr rf rng n excl calls).boardAfter = b := by
  intro n
  induction n with
  | zero =>
    intro excl calls
    unfold safeGetMoveLoop
    split
    · cases randomChoice b.legalMoves rng <;> rfl
    · rfl
  | succ n ih =>
    intro excl calls
    unfold safeGetMoveLoop
    cases hE : E b sm excl with
    | error e => simp only [hE]
    | ok raw0 =>
      cases hp : parseMove b (pyStrip raw0) with
      | some m =>
        simp only [hE, hp]
        split
        · rfl
        · exact ih _ _
      | none =>
        simp only [hE, hp]
        exact ih _ _

/-- With a provider that always answers (never throws) and always fails to
resolve, the loop runs out its budget and lands in the exhaustion branch,
having appended one stripped response per attempt. -/
theorem safeGetMoveLoop_allFail (b : Board) (E : Provider) (sm turn : String)
    (mr : Nat) (rf : Bool) (rng : Nat) (f : List String → String)
    (hE : ∀ excl, E b sm excl = Except.ok (f excl))
    (hf : ∀ excl, attemptFails b (f excl) = true) :
    ∀ (n : Nat) (excl : List String) (calls : Nat),
      ∃ tail : List String, tail.length = n ∧
        safeGetMoveLoop b E sm turn mr rf rng n excl calls
          = safeGetMoveLoop b E sm turn mr rf rng 0 (excl ++ tail) (calls + n) := by
  intro n
  induction n with
  | zero => intro excl calls; exact ⟨[], rfl, by simp⟩
  | succ n ih =>
    intro excl calls
    obtain ⟨tail, hlen, heq⟩ := ih (excl ++ [pyStrip (f excl)]) (calls + 1)
    refine ⟨pyStrip (f excl) :: tail, by simp [hlen], ?_⟩
    rw [safeGetMoveLoop_step_fail b E sm turn mr rf rng n calls excl (f excl)
      (hE excl) (hf excl), heq]
    have h2 : (excl ++ [pyStrip (f excl)]) ++ tail = excl ++ (pyStrip (f excl) :: tail) := by
      simp
    have h3 : calls + 1 + n = calls + (n + 1) := by omega
    rw [h2, h3]

/-- With a provider that always answers the same failing string, the loop
appends exactly one copy of the stripped string per attempt. -/
theorem safeGetMoveLoop_constFail (b : Board) (E : Provider) (sm turn : String)
    (mr : Nat) (rf : Bool) (rng : Nat) (s : String)
    (hE : ∀ excl, E b sm excl = Except.ok s)
    (hf : attemptFails b s = true) :
    ∀ (n : Nat) (excl : List String) (calls : Nat),
      safeGetMoveLoop b E sm turn mr rf rng n excl calls
        = safeGetMoveLoop b E sm turn mr rf rng 0
            (excl ++ List.replicate n (pyStrip s)) (calls + n) := by
  intro n
  induction n with
  | zero => intro excl calls; simp
  | succ n ih =>
    intro excl calls
    rw [safeGetMoveLoop_step_fail b E sm turn mr rf rng n calls excl s
      (hE excl) hf, ih]
    have h2 : (excl ++ [pyStrip s]) ++ List.replicate n (pyStrip s)
        = excl ++ List.replicate (n + 1) (pyStrip s) := by
      rw [List.append_assoc]
      rfl
    have h3 : calls + 1 + n = calls + (n + 1) := by omega
    rw [h2, h3]

/-- The exhaustion branch reports the exclusion list and call count it is
handed, and emits exactly one warning. -/
theorem safeGetMoveLoop_zero_projections (b : Board) (E : Provider)
    (sm turn : String) (mr : Nat) (rf : Bool) (rng : Nat)
    (excl : List String) (calls : Nat) :
    (safeGetMoveLoop b E sm turn mr rf rng 0 excl calls).excluded = excl
    ∧ (safeGetMoveLoop b E sm turn mr rf rng 0 excl calls).providerCalls = calls
    ∧ (safeGetMoveLoop b E sm turn mr rf rng 0 excl calls).warnings
        = [if rf then fallbackWarning turn mr else forfeitWarning turn mr] := by
  unfold safeGetMoveLoop
  cases rf with
  | false => exact ⟨rfl, rfl, rfl⟩
  | true =>
    cases hc : randomChoice b.legalMoves rng <;> simp [hc]

/-- With a never-throwing provider, and a nonempty legal-move list whenever
the random fallback is enabled, the loop returns a well-formed value:
`None` or a legal move. -/
theorem safeGetMoveLoop_nothrow (b : Board) (E : Provider) (sm turn : String)
    (mr : Nat) (rf : Bool) (rng : Nat)
    (hE : ∀ excl, ∃ s, E b sm excl = Except.ok s)
    (hrf : rf = true → b.legalMoves ≠ []) :
    ∀ (n : Nat) (excl : List String) (calls : Nat),
      (safeGetMoveLoop b E sm turn mr rf rng n excl calls).result = Except.ok none
      ∨ ∃ m, (safeGetMoveLoop b E sm turn mr rf rng n excl calls).result
            = Except.ok (some m) ∧ m ∈ b.legalMoves := by
  intro n
  induction n with
  | zero =>
    intro excl calls
    cases rf with
    | false => left; rfl
    | true =>
      right
      obtain ⟨hlt, hc⟩ := randomChoice_nonempty b.legalMoves rng (hrf rfl)
      refine ⟨b.legalMoves.get ⟨rng % b.legalMoves.length, hlt⟩, ?_, List.get_mem _ _ _⟩
      unfold safeGetMoveLoop
      simp [hc]
  | succ n ih =>
    intro excl calls
    obtain ⟨s, hs⟩ := hE excl
    cases hp : parseMove b (pyStrip s) with
    | some m =>
      cases hc : b.legalMoves.contains m with
      | true =>
        right
        refine ⟨m, ?_, mem_of_containsList hc⟩
        unfold safeGetMoveLoop
        simp only [hs, hp]
        split
        · rfl
        · next hcon => exact absurd hc hcon
      | false =>
        rw [safeGetMoveLoop_step_fail b E sm turn mr rf rng n calls excl s hs
          (by unfold attemptFails; rw [hp]; simpa using hc)]
        exact ih _ _
    | none =>
      rw [safeGetMoveLoop_step_fail b E sm turn mr rf rng n calls excl s hs
        (by unfold attemptFails; rw [hp])]
      exact ih _ _

/-- With all attempts failing and the random fallback on, the run ends in
the fallback branch and returns the legal move indexed by the seed modulo
the number of legal moves. -/
theorem safe_get_move_fallback_result (b : Board) (E : Provider)
    (sm turn : String) (mr rng : Nat) (f : List String → String)
    (hE : ∀ excl, E b sm excl = Except.ok (f excl))
    (hf : ∀ excl, attemptFails b (f excl) = true)
    (hne : b.legalMoves ≠ []) :
    ∃ hlt : rng % b.legalMoves.length < b.legalMoves.length,
      (safe_get_move b E sm turn mr true rng).result
        = Except.ok (some (b.legalMoves.get ⟨rng % b.legalMoves.length, hlt⟩)) := by
  obtain ⟨tail, hlen, heq⟩ :=
    safeGetMoveLoop_allFail b E sm turn mr true rng f hE hf mr [] 0
  obtain ⟨hlt, hc⟩ := randomChoice_nonempty b.legalMoves rng hne
  refine ⟨hlt, ?_⟩
  unfold safe_get_move
  rw [heq]
  unfold safeGetMoveLoop
  simp [hc]

-- Claim theorems. --

/-- Claim C1, counterexample: on a position with no legal moves, with the
random fallback enabled and a provider whose answers never resolve,
`safe_get_move` raises `IndexError` out of `random.choice` instead of
returning: at `max_retries = 1` it yields neither `None` nor a legal move,
refuting the claim quantified over every position. -/
theorem C1_counterexample :
    ¬ ((safe_get_move bMate eJunk "gpt-4o-mini" "white" 1 true 0).result
          = Except.ok none
      ∨ ∃ m, (safe_get_move bMate eJunk "gpt-4o-mini" "white" 1 true 0).result
          = Except.ok (some m) ∧ m ∈ bMate.legalMoves) := by
  have hres : (safe_get_move bMate eJunk "gpt-4o-mini" "white" 1 true 0).result
      = Except.error PyExc.indexError := by decide
  rintro (h | ⟨m, h, hm⟩) <;> rw [hres] at h <;> exact Except.noConfusion h

/-- Claim C1 (amended): for every position whose legal-move set is
nonempty, every provider call that returns a string rather than raising,
and every `max_retries ≥ 1`, `safe_get_move` returns either a legal move of
the position or `None` (forfeit); moreover, unconditionally, any move it
returns is a member of the legal-move set.  Termination is modelled by the
totality of the embedding, which makes at most `max_retries` provider
calls. -/
theorem C1_legal_or_forfeit (b : Board) (E : Provider) (sm turn : String)
    (mr : Nat) (rf : Bool) (rng : Nat) :
    (∀ m, (safe_get_move b E sm turn mr rf rng).result = Except.ok (some m) →
        m ∈ b.legalMoves)
    ∧ ((∀ excl, ∃ s, E b sm excl = Except.ok s) → b.legalMoves ≠ [] → 1 ≤ mr →
        ((safe_get_move b E sm turn mr rf rng).result = Except.ok none
          ∨ ∃ m, (safe_get_move b E sm turn mr rf rng).result = Except.ok (some m)
              ∧ m ∈ b.legalMoves)) := by
  constructor
  · intro m h
    exact safeGetMoveLoop_ok_mem b E sm turn mr rf rng mr [] 0 m h
  · intro hE hne _
    exact safeGetMoveLoop_nothrow b E sm turn mr rf rng hE (fun _ => hne) mr [] 0

/-- Witness for C1: a never-throwing provider on a position with two legal
moves, three retries, fallback on. -/
theorem C1_legal_or_forfeit_witness :
    (safe_get_move bTwo eGood "gpt-4o-mini" "white" 3 true 0).result
        = Except.ok none
    ∨ ∃ m, (safe_get_move bTwo eGood "gpt-4o-mini" "white" 3 true 0).result
        = Except.ok (some m) ∧ m ∈ bTwo.legalMoves :=
  (C1_legal_or_forfeit bTwo eGood "gpt-4o-mini" "white" 3 true 0).2
    (fun _ => ⟨"e2e4", rfl⟩) (by decide) (by decide)

/-- Claim C2, counterexample: a provider that raises a transport error is
not treated like an empty or unparsable response: there is no try/except
around the `engine_func` call, so the exception propagates out of
`safe_get_move` after exactly one provider invocation (not `max_retries`
of them), and no well-formed value is returned. -/
theorem C2_counterexample :
    (safe_get_move bTwo eThrow "gpt-4o-mini" "white" 3 true 0).result
        = Except.error (PyExc.providerError "boom")
    ∧ (¬ ∃ o, (safe_get_move bTwo eThrow "gpt-4o-mini" "white" 3 true 0).result
        = Except.ok o)
    ∧ (safe_get_move bTwo eThrow "gpt-4o-mini" "white" 3 true 0).providerCalls
        = 1 := by
  refine ⟨by decide, ?_, by decide⟩
  have hres : (safe_get_move bTwo eThrow "gpt-4o-mini" "white" 3 true 0).result
      = Except.error (PyExc.providerError "boom") := by decide
  rintro ⟨o, h⟩
  rw [hres] at h
  exact Except.noConfusion h

/-- Claim C2 (amended): an exception thrown by the provider is not caught
by `safe_get_move` and propagates out of it; only an empty or unparsable
returned string is treated as a failed attempt.  For every provider call
that returns a string rather than raising, `safe_get_move` returns a
well-formed result (a move or `None`), provided the legal-move set is
nonempty whenever the random fallback is enabled. -/
theorem C2_error_propagation (b : Board) (E : Provider) (sm turn : String)
    (mr : Nat) (rf : Bool) (rng : Nat) :
    (∀ e : String, E b sm [] = Except.error e → 1 ≤ mr →
        (safe_get_move b E sm turn mr rf rng).result
          = Except.error (PyExc.providerError e))
    ∧ ((∀ excl, ∃ s, E b sm excl = Except.ok s) →
        (rf = true → b.legalMoves ≠ []) →
        ∃ o, (safe_get_move b E sm turn mr rf rng).result = Except.ok o) := by
  constructor
  · intro e hEe hmr
    obtain ⟨k, rfl⟩ : ∃ k, mr = k + 1 := ⟨mr - 1, by omega⟩
    unfold safe_get_move
    unfold safeGetMoveLoop
    simp [hEe]
  · intro hE hrf
    rcases safeGetMoveLoop_nothrow b E sm turn mr rf rng hE hrf mr [] 0
      with h | ⟨m, h, _⟩
    · exact ⟨none, h⟩
    · exact ⟨some m, h⟩

/-- Witness for C2 (amended): a throwing provider propagates its error. -/
theorem C2_error_propagation_witness :
    (safe_get_move bTwo eThrow "claude-3-5-haiku-20241022" "black" 2 false 5).result
      = Except.error (PyExc.providerError "boom") :=
  (C2_error_propagation bTwo eThrow "claude-3-5-haiku-20241022" "black" 2 false 5).1
    "boom" rfl (by decide)

/-- Claim C3 (code bug): the `include_valid_moves` toggle collected by
`render_main_ui` never reaches the prompt: main.py does not read it and the
wrappers take no such parameter, so the prompt sent for a ply is
byte-identical whether the option is enabled or disabled, and no
legal-move block is ever added. -/
theorem C3_option_never_reaches_prompt :
    ∀ (rf1 rf2 flag1 flag2 : Bool) (b : Board) (excluded : List String),
      promptForPly ⟨rf1, flag1⟩ b excluded = promptForPly ⟨rf2, flag2⟩ b excluded :=
  fun _ _ _ _ _ _ => rfl

/-- Claim C4: if the random fallback is enabled and every one of the
`max_retries` provider responses fails to resolve to a legal move, then on
a position with at least one legal move `safe_get_move` returns a member of
the legal-move set; the chosen move is the list entry indexed by the seed
modulo the list length, so for every index below the length there is
exactly one seed residue selecting it (uniform over a uniformly random
seed). -/
theorem C4_random_fallback_legal (b : Board) (E : Provider) (sm turn : String)
    (mr rng : Nat) (f : List String → String)
    (hE : ∀ excl, E b sm excl = Except.ok (f excl))
    (hf : ∀ excl, attemptFails b (f excl) = true)
    (hne : b.legalMoves ≠ []) :
    (∃ m, (safe_get_move b E sm turn mr true rng).result = Except.ok (some m)
        ∧ m ∈ b.legalMoves)
    ∧ ∀ i (hi : i < b.legalMoves.length),
        (safe_get_move b E sm turn mr true i).result
          = Except.ok (some (b.legalMoves.get ⟨i, hi⟩)) := by
  constructor
  · obtain ⟨hlt, h⟩ := safe_get_move_fallback_result b E sm turn mr rng f hE hf hne
    exact ⟨_, h, List.get_mem _ _ _⟩
  · intro i hi
    obtain ⟨hlt, h⟩ := safe_get_move_fallback_result b E sm turn mr i f hE hf hne
    have hfin : (⟨i % b.legalMoves.length, hlt⟩ : Fin b.legalMoves.length)
        = ⟨i, hi⟩ := Fin.ext (Nat.mod_eq_of_lt hi)
    rw [h, hfin]

/-- Witness for C4: the constant unparsable response "xx" burns all three
attempts; seed 1 selects the second of the two legal moves. -/
theorem C4_random_fallback_legal_witness :
    (safe_get_move bTwo eJunk "gpt-4o-mini" "white" 3 true 1).result
      = Except.ok (some "d2d4") :=
  Eq.trans
    ((C4_random_fallback_legal bTwo eJunk "gpt-4o-mini" "white" 3 1 (fun _ => "xx")
      (fun _ => rfl) (fun _ => rfl) (by decide)).2 1 (by decide))
    (by decide)

/-- Both warning texts open with the title-cased side name. -/
theorem containsStr_triesMsg_side (turn : String) (mr : Nat) (tail : String) :
    containsStr (triesMsg turn mr ++ tail) (pyTitle turn) :=
  ⟨[], " gave invalid moves after ".data ++ (toString mr).data
      ++ " tries. ".data ++ tail.data, by
    simp [triesMsg, String.data_append]⟩

/-- Both warning texts contain the retry count. -/
theorem containsStr_triesMsg_count (turn : String) (mr : Nat) (tail : String) :
    containsStr (triesMsg turn mr ++ tail) (toString mr) :=
  ⟨(pyTitle turn).data ++ " gave invalid moves after ".data,
    " tries. ".data ++ tail.data, by
    simp [triesMsg, String.data_append]⟩

/-- Claim C5: with the random fallback disabled and every provider response
failing to resolve, `safe_get_move` returns `None` (forfeit); and on both
the forfeit and the fallback branch exactly one warning is surfaced, whose
text contains the title-cased side name and the number of attempts
exhausted. -/
theorem C5_forfeit_warning (b : Board) (E : Provider) (sm turn : String)
    (mr rng : Nat) (f : List String → String)
    (hE : ∀ excl, E b sm excl = Except.ok (f excl))
    (hf : ∀ excl, attemptFails b (f excl) = true) :
    (safe_get_move b E sm turn mr false rng).result = Except.ok none
    ∧ (safe_get_move b E sm turn mr false rng).warnings = [forfeitWarning turn mr]
    ∧ (safe_get_move b E sm turn mr true rng).warnings = [fallbackWarning turn mr]
    ∧ containsStr (forfeitWarning turn mr) (pyTitle turn)
    ∧ containsStr (forfeitWarning turn mr) (toString mr)
    ∧ containsStr (fallbackWarning turn mr) (pyTitle turn)
    ∧ containsStr (fallbackWarning turn mr) (toString mr) := by
  obtain ⟨t1, hl1, he1⟩ :=
    safeGetMoveLoop_allFail b E sm turn mr false rng f hE hf mr [] 0
  obtain ⟨t2, hl2, he2⟩ :=
    safeGetMoveLoop_allFail b E sm turn mr true rng f hE hf mr [] 0
  refine ⟨?_, ?_, ?_,
    containsStr_triesMsg_side turn mr _, containsStr_triesMsg_count turn mr _,
    containsStr_triesMsg_side turn mr _, containsStr_triesMsg_count turn mr _⟩
  · show (safeGetMoveLoop b E sm turn mr false rng mr [] 0).result = _
    rw [he1]
    rfl
  · show (safeGetMoveLoop b E sm turn mr false rng mr [] 0).warnings = _
    rw [he1, (safeGetMoveLoop_zero_projections b E sm turn mr false rng _ _).2.2]
    rfl
  · show (safeGetMoveLoop b E sm turn mr true rng mr [] 0).warnings = _
    rw [he2, (safeGetMoveLoop_zero_projections b E sm turn mr true rng _ _).2.2]
    rfl

/-- Witness for C5: three unparsable responses on a live position. -/
theorem C5_forfeit_warning_witness :
    (safe_get_move bTwo eJunk "gpt-4o-mini" "white" 3 false 0).result
        = Except.ok none
    ∧ (safe_get_move bTwo eJunk "gpt-4o-mini" "white" 3 false 0).warnings
        = [forfeitWarning "white" 3]
    ∧ (safe_get_move bTwo eJunk "gpt-4o-mini" "white" 3 true 0).warnings
        = [fallbackWarning "white" 3] := by
  have h := C5_forfeit_warning bTwo eJunk "gpt-4o-mini" "white" 3 0 (fun _ => "xx")
    (fun _ => rfl) (fun _ => rfl)
  exact ⟨h.1, h.2.1, h.2.2.1⟩

/-- Claim C6: the exclusion list starts empty at every call (`excluded_moves
= []` before the loop), grows by exactly one entry per failed attempt with
the stripped response appended and never otherwise normalized or
deduplicated; with a provider returning the same invalid already-stripped
string (the wrappers return pre-stripped text) on every attempt, after
`max_retries` provider calls it holds exactly `max_retries` entries, all
identical to that string. -/
theorem C6_exclusion_list (b : Board) (E : Provider) (sm turn : String)
    (mr : Nat) (rf : Bool) (rng : Nat) (s : String)
    (hE : ∀ excl, E b sm excl = Except.ok s)
    (hf : attemptFails b s = true)
    (hs : pyStrip s = s) :
    (safe_get_move b E sm turn mr rf rng).excluded = List.replicate mr s
    ∧ (safe_get_move b E sm turn mr rf rng).excluded.length = mr
    ∧ (safe_get_move b E sm turn mr rf rng).providerCalls = mr
    ∧ ∀ x ∈ (safe_get_move b E sm turn mr rf rng).excluded, x = s := by
  have heq := safeGetMoveLoop_constFail b E sm turn mr rf rng s hE hf mr [] 0
  have hz := safeGetMoveLoop_zero_projections b E sm turn mr rf rng
    ([] ++ List.replicate mr (pyStrip s)) (0 + mr)
  have hex : (safe_get_move b E sm turn mr rf rng).excluded
      = List.replicate mr s := by
    show (safeGetMoveLoop b E sm turn mr rf rng mr [] 0).excluded = _
    rw [heq, hz.1]
    simp [hs]
  refine ⟨hex, by rw [hex]; simp, ?_, ?_⟩
  · show (safeGetMoveLoop b E sm turn mr rf rng mr [] 0).providerCalls = mr
    rw [heq, hz.2.1]
    omega
  · intro x hx
    rw [hex] at hx
    exact List.eq_of_mem_replicate hx

/-- Witness for C6: three identical unparsable responses leave three
identical exclusion entries. -/
theorem C6_exclusion_list_witness :
    (safe_get_move bTwo eJunk "gpt-4o-mini" "white" 3 false 0).excluded
      = ["xx", "xx", "xx"] := by
  have h := C6_exclusion_list bTwo eJunk "gpt-4o-mini" "white" 3 false 0 "xx"
    (fun _ => rfl) rfl rfl
  rw [h.1]
  rfl

/-- Claim C7: with `max_retries = 0` the loop body never runs: zero
provider calls, and the call goes straight to the fallback/forfeit branch —
`None` plus the forfeit warning when the fallback is off, and a random
legal move plus the fallback warning when it is on and a legal move
exists. -/
theorem C7_zero_retries (b : Board) (E : Provider) (sm turn : String)
    (rf : Bool) (rng : Nat) :
    (safe_get_move b E sm turn 0 rf rng).providerCalls = 0
    ∧ (safe_get_move b E sm turn 0 false rng).result = Except.ok none
    ∧ (safe_get_move b E sm turn 0 false rng).warnings = [forfeitWarning turn 0]
    ∧ (b.legalMoves ≠ [] →
        ∃ m, (safe_get_move b E sm turn 0 true rng).result = Except.ok (some m)
          ∧ m ∈ b.legalMoves
          ∧ (safe_get_move b E sm turn 0 true rng).warnings
              = [fallbackWarning turn 0]) := by
  refine ⟨(safeGetMoveLoop_zero_projections b E sm turn 0 rf rng [] 0).2.1,
    rfl, rfl, ?_⟩
  intro hne
  obtain ⟨hlt, hc⟩ := randomChoice_nonempty b.legalMoves rng hne
  refine ⟨b.legalMoves.get ⟨rng % b.legalMoves.length, hlt⟩, ?_,
    List.get_mem _ _ _, ?_⟩
  · show (safeGetMoveLoop b E sm turn 0 true rng 0 [] 0).result = _
    unfold safeGetMoveLoop
    simp [hc]
  · show (safeGetMoveLoop b E sm turn 0 true rng 0 [] 0).warnings = _
    rw [(safeGetMoveLoop_zero_projections b E sm turn 0 true rng [] 0).2.2]
    rfl

/-- Witness for C7: zero retries make zero provider calls and fall straight
through to forfeit or fallback. -/
theorem C7_zero_retries_witness :
    (safe_get_move bTwo eJunk "gpt-4o-mini" "black" 0 false 3).providerCalls = 0
    ∧ (safe_get_move bTwo eJunk "gpt-4o-mini" "black" 0 false 3).result
        = Except.ok none
    ∧ (safe_get_move bTwo eJunk "gpt-4o-mini" "black" 0 true 3).warnings
        = [fallbackWarning "black" 0] := by
  have h1 := C7_zero_retries bTwo eJunk "gpt-4o-mini" "black" false 3
  have h2 := C7_zero_retries bTwo eJunk "gpt-4o-mini" "black" true 3
  obtain ⟨m, hm, hmem, hw⟩ := h2.2.2.2 (by decide)
  exact ⟨h1.1, h1.2.1, hw⟩

/-- Claim C8: `safe_get_move` never mutates the board: the embedding
returns the board it threaded through every oracle operation the source
invokes (the two parsers and the legal-move reads, all queries), and it
equals the input board; only the ply step of the match driver applies a move —
via the push operation of the oracle — and only after a resolved, hence legal, move was
returned. -/
theorem C8_board_unchanged (b : Board) (E : Provider) (sm turn : String)
    (mr : Nat) (rf : Bool) (rng : Nat) :
    (safe_get_move b E sm turn mr rf rng).boardAfter = b
    ∧ ∀ push : Board → Move → Board,
        plyStep push b E sm turn mr rf rng = b
        ∨ ∃ m, m ∈ b.legalMoves
            ∧ (safe_get_move b E sm turn mr rf rng).result = Except.ok (some m)
            ∧ plyStep push b E sm turn mr rf rng = push b m := by
  constructor
  · exact safeGetMoveLoop_boardAfter b E sm turn mr rf rng mr [] 0
  · intro push
    unfold plyStep
    cases hres : (safe_get_move b E sm turn mr rf rng).result with
    | error e => left; rfl
    | ok o =>
      cases o with
      | none => left; rfl
      | some m =>
        right
        exact ⟨m, safeGetMoveLoop_ok_mem b E sm turn mr rf rng mr [] 0 m hres,
          rfl, rfl⟩

/-- Claim C9: the four provider wrappers construct byte-identical prompts
for the same board and exclusion list: the four inline builders are the
same pure function of side to move, FEN serialization and excluded-move
list. -/
theorem C9_prompts_identical (b : Board) (excluded : List String) :
    get_openai_move_prompt b excluded = get_claude_move_prompt b excluded
    ∧ get_claude_move_prompt b excluded = get_deepseek_move_prompt b excluded
    ∧ get_deepseek_move_prompt b excluded = get_gemini_move_prompt b excluded :=
  ⟨rfl, rfl, rfl⟩

/-- Claim C10: if the fallback branch is reached with the random fallback
enabled on a position whose legal-move set is empty, the selection from the
empty legal-move list raises `IndexError` instead of returning; under the
precondition that at least one legal move exists, the fallback returns a
legal move. -/
theorem C10_empty_legal_raises (b : Board) (E : Provider) (sm turn : String)
    (mr rng : Nat) (f : List String → String)
    (hE : ∀ excl, E b sm excl = Except.ok (f excl))
    (hf : ∀ excl, attemptFails b (f excl) = true) :
    (b.legalMoves = [] →
      (safe_get_move b E sm turn mr true rng).result
        = Except.error PyExc.indexError)
    ∧ (b.legalMoves ≠ [] →
      ∃ m, (safe_get_move b E sm turn mr true rng).result = Except.ok (some m)
        ∧ m ∈ b.legalMoves) := by
  constructor
  · intro hleg
    obtain ⟨tail, hlen, heq⟩ :=
      safeGetMoveLoop_allFail b E sm turn mr true rng f hE hf mr [] 0
    show (safeGetMoveLoop b E sm turn mr true rng mr [] 0).result = _
    rw [heq]
    unfold safeGetMoveLoop
    have hc : randomChoice b.legalMoves rng = none := by
      simp [randomChoice, hleg]
    simp [hc]
  · intro hne
    obtain ⟨hlt, h⟩ := safe_get_move_fallback_result b E sm turn mr rng f hE hf hne
    exact ⟨_, h, List.get_mem _ _ _⟩

/-- Witness for C10: a checkmated position with the fallback enabled and
unparsable responses ends in `IndexError`. -/
theorem C10_empty_legal_raises_witness :
    (safe_get_move bMate eJunk "gpt-4o-mini" "black" 3 true 7).result
      = Except.error PyExc.indexError :=
  (C10_empty_legal_raises bMate eJunk "gpt-4o-mini" "black" 3 7 (fun _ => "xx")
    (fun _ => rfl) (fun _ => rfl)).1 rfl
